import Mathlib

/-!
# Real-Time task board: task store, smart-assign policy, presence and editing sessions

Shallow embedding of `server/routes/tasks.js` (create / update / delete /
smart-assign handlers) and of the socket handlers of `server/index.js`
(connection, startEditingTask, stopEditingTask, disconnect).

Every handler is a pure function from the state it reads to the response (or
the emitted events) and the state it leaves behind.
-/

namespace RealTime

/-! ## Strings -/

/-- Code points removed by `String.prototype.trim`: the ECMAScript WhiteSpace and
LineTerminator productions. -/
def isWhiteSpace (c : Char) : Bool :=
  [9, 10, 11, 12, 13, 32, 160, 5760, 8232, 8233, 8239, 8287, 12288, 65279].contains c.toNat
    || (8192 ≤ c.toNat && c.toNat ≤ 8202)

/-- Strip leading and trailing white space from a list of characters. -/
def trimChars (cs : List Char) : List Char :=
  ((cs.dropWhile isWhiteSpace).reverse.dropWhile isWhiteSpace).reverse

/-- The method `title.trim()`. -/
def jsTrim (s : String) : String := ⟨trimChars s.data⟩

/-! ## Documents -/

/-- A MongoDB ObjectId. -/
abbrev ObjectId := Nat

/-- A user document restricted to the projection `'username email'` (plus `_id`). -/
structure User where
  _id : ObjectId
  username : String
  email : String
deriving DecidableEq, Repr

/-- A stored task document: the paths of the Task model that the routes read or write. -/
structure Task where
  _id : ObjectId
  title : String
  description : String
  status : String
  priority : String
  assignedTo : Option ObjectId
  createdBy : ObjectId
  version : Int
deriving DecidableEq, Repr

/-- A task after `populate('assignedTo')` and `populate('createdBy')`: the two
references are replaced by the referenced user document, or by null when
no such user exists. -/
structure PopulatedTask where
  _id : ObjectId
  title : String
  description : String
  status : String
  priority : String
  assignedTo : Option User
  createdBy : Option User
  version : Int
deriving DecidableEq, Repr

/-- A value as seen by `JSON.stringify` in the change diff of the update route. -/
inductive Val where
  | null
  | str (s : String)
  | oid (i : ObjectId)
  | doc (u : User)
deriving DecidableEq, Repr

/-- The serialised shape of a value: `null`, a quoted string (an ObjectId
serialises through `toJSON` to its quoted hexadecimal text) or an object. -/
inductive JsonText where
  | nullLit
  | quoted (text : String)
  | quotedId (i : ObjectId)
  | object (u : User)
deriving DecidableEq, Repr

/-- The function `JSON.stringify` on the values the diff compares. Within one key
the two sides are either both strings (title, description, status, priority) or
null / ObjectId / populated document (assignedTo). -/
def stringify : Val → JsonText
  | .null => .nullLit
  | .str s => .quoted s
  | .oid i => .quotedId i
  | .doc u => .object u

/-- One entry of `changes`: `{ from: oldValues[key], to: task[key] }` (both key
names are reserved words here, hence the suffix). -/
structure Change where
  fromVal : Val
  toVal : Val
deriving DecidableEq, Repr

/-- The `type` enum of the Action schema. -/
inductive ActionType where
  | create | update | delete | assign | move | smart_assign
deriving DecidableEq, Repr

/-- The `details` payloads written by the task routes. -/
inductive Details where
  | titleStatus (title status : String)
  | changes (changes : List (String × Change))
  | smartAssign (assignedTo : String) (previousAssignee : Option ObjectId) (taskCount : Nat)
deriving DecidableEq, Repr

/-- An Action document (the timestamp default is left out). -/
structure Action where
  type : ActionType
  taskId : ObjectId
  userId : ObjectId
  details : Details
deriving DecidableEq, Repr

/-- The database: the task, user and action collections and the supply of fresh
ObjectIds for new task documents. Actions are appended in the order written. -/
structure Db where
  tasks : List Task
  users : List User
  actions : List Action
  nextId : ObjectId
deriving DecidableEq, Repr

/-- What a route sends back. -/
inductive Response where
  | task (code : Nat) (t : PopulatedTask)
  | message (code : Nat) (msg : String)
  | conflict (message : String) (currentTask : Task)
deriving DecidableEq, Repr

/-! ## Persistence primitives -/

/-- The query `Task.findById(id)`. -/
def findById (tasks : List Task) (id : ObjectId) : Option Task :=
  tasks.find? (fun t => t._id == id)

/-- The query `Task.findOne({ title })`. -/
def findOneByTitle (tasks : List Task) (title : String) : Option Task :=
  tasks.find? (fun t => t.title == title)

/-- The query `Task.findOne({ title, _id: { $ne: id } })`. -/
def findOneByTitleExcept (tasks : List Task) (title : String) (id : ObjectId) : Option Task :=
  tasks.find? (fun t => t.title == title && t._id != id)

/-- The query `User.findById` behind `populate`. -/
def findUser (users : List User) (id : ObjectId) : Option User :=
  users.find? (fun u => u._id == id)

/-- The two calls `task.populate('assignedTo', ..)` and `task.populate('createdBy', ..)`. -/
def populate (users : List User) (t : Task) : PopulatedTask :=
  { _id := t._id, title := t.title, description := t.description, status := t.status,
    priority := t.priority,
    assignedTo := t.assignedTo.bind (findUser users),
    createdBy := findUser users t.createdBy,
    version := t.version }

/-- Modelled from the spec: the Task model (`models/Task.js`) is not among the
sources; the spec says `version` is "incremented on every successful mutation",
so saving an existing document stores it with its version raised by one. -/
def bumpVersion (t : Task) : Task := { t with version := t.version + 1 }

/-- The call `task.save()` on a document loaded from the collection: the stored
document with the same `_id` is replaced. -/
def saveExisting (tasks : List Task) (t : Task) : List Task :=
  tasks.map (fun s => if s._id == t._id then t else s)

/-- The call `Task.findByIdAndDelete(id)`. -/
def deleteById (tasks : List Task) (id : ObjectId) : List Task :=
  tasks.filter (fun t => t._id != id)

/-- The reserved column names. -/
def forbiddenTitles : List String := ["Todo", "In Progress", "Done"]

/-! ## Create -/

/-- The body of `POST /`. A missing key is `none`. -/
structure CreateBody where
  title : Option String
  description : Option String
  priority : Option String
  assignedTo : Option ObjectId
deriving DecidableEq, Repr

/-- The expression `x || dflt` on an optional string: undefined and the empty string are falsy. -/
def orDefault (x : Option String) (dflt : String) : String :=
  match x with
  | none => dflt
  | some s => if s = "" then dflt else s

/-- Modelled from the spec: the Task model (`models/Task.js`) is not among the
sources; the spec gives the defaults of a new task, status `Todo` and `version` 1. -/
def newTask (id : ObjectId) (title description priority : String)
    (assignedTo : Option ObjectId) (createdBy : ObjectId) : Task :=
  { _id := id, title := title, description := description, status := "Todo",
    priority := priority, assignedTo := assignedTo, createdBy := createdBy, version := 1 }

/-- The handler `router.post('/')`, run by the authenticated user `userId`. -/
def createTask (body : CreateBody) (userId : ObjectId) (db : Db) : Response × Db :=
  match body.title with
  | none => (.message 400 "Title is required", db)
  | some title =>
    if title = "" ∨ (jsTrim title).length = 0 then
      (.message 400 "Title is required", db)
    else if forbiddenTitles.contains (jsTrim title) then
      (.message 400 "Task title cannot match column names", db)
    else
      match findOneByTitle db.tasks (jsTrim title) with
      | some _ => (.message 400 "Task title must be unique", db)
      | none =>
        let task := newTask db.nextId (jsTrim title)
          (orDefault (body.description.map jsTrim) "")
          (orDefault body.priority "Medium") body.assignedTo userId
        let action : Action :=
          { type := .create, taskId := task._id, userId := userId,
            details := .titleStatus task.title task.status }
        (.task 201 (populate db.users task),
         { db with tasks := db.tasks ++ [task], actions := db.actions ++ [action],
                   nextId := db.nextId + 1 })

/-! ## Update -/

/-- The body of `PUT /:id`. A missing key is `none`; `assignedTo: null` is `some none`. -/
structure UpdateBody where
  title : Option String
  description : Option String
  status : Option String
  priority : Option String
  assignedTo : Option (Option ObjectId)
  version : Option Int
deriving DecidableEq, Repr

/-- The condition `version && task.version !== version`: an absent version and
the number 0 are falsy. -/
def versionConflict (version : Option Int) (stored : Int) : Bool :=
  match version with
  | none => false
  | some v => v != 0 && stored != v

/-- The snapshot `oldValues` and the later reads `task[key]`, as an ordered list of keys. -/
def diffKeys : List String := ["title", "description", "status", "priority", "assignedTo"]

/-- The snapshot `oldValues`, taken from the unpopulated document. -/
def oldValues (t : Task) : String → Val
  | "title" => .str t.title
  | "description" => .str t.description
  | "status" => .str t.status
  | "priority" => .str t.priority
  | _ => match t.assignedTo with
    | none => .null
    | some i => .oid i

/-- The read `task[key]` after save and populate. -/
def populatedValue (t : PopulatedTask) : String → Val
  | "title" => .str t.title
  | "description" => .str t.description
  | "status" => .str t.status
  | "priority" => .str t.priority
  | _ => match t.assignedTo with
    | none => .null
    | some u => .doc u

/-- The loop building `changes`. -/
def computeChanges (old : String → Val) (t : PopulatedTask) : List (String × Change) :=
  diffKeys.filterMap (fun key =>
    if stringify (old key) ≠ stringify (populatedValue t key) then
      some (key, { fromVal := old key, toVal := populatedValue t key })
    else none)

/-- The block `if (title !== undefined) { ... }`: either an early 400 response or
the document with its title possibly replaced. -/
def applyTitle (tasks : List Task) (task : Task) (title : Option String) :
    Except Response Task :=
  match title with
  | none => .ok task
  | some title =>
    if jsTrim title = "" then
      .error (.message 400 "Title is required")
    else if forbiddenTitles.contains (jsTrim title) then
      .error (.message 400 "Task title cannot match column names")
    else if jsTrim title ≠ task.title then
      match findOneByTitleExcept tasks (jsTrim title) task._id with
      | some _ => .error (.message 400 "Task title must be unique")
      | none => .ok { task with title := jsTrim title }
    else .ok task

/-- The four assignments after the title block. -/
def applyFields (task : Task) (body : UpdateBody) : Task :=
  let t1 := match body.description with
    | some d => { task with description := jsTrim d }
    | none => task
  let t2 := match body.status with
    | some s => { t1 with status := s }
    | none => t1
  let t3 := match body.priority with
    | some p => { t2 with priority := p }
    | none => t2
  match body.assignedTo with
  | some a => { t3 with assignedTo := a }
  | none => t3

/-- The handler `router.put('/:id')`, run by the authenticated user `userId`. -/
def updateTask (id : ObjectId) (body : UpdateBody) (userId : ObjectId) (db : Db) :
    Response × Db :=
  match findById db.tasks id with
  | none => (.message 404 "Task not found", db)
  | some task =>
    if versionConflict body.version task.version then
      (.conflict "Conflict detected" task, db)
    else
      match applyTitle db.tasks task body.title with
      | .error r => (r, db)
      | .ok titled =>
        let saved := bumpVersion (applyFields titled body)
        let tasks := saveExisting db.tasks saved
        let populated := populate db.users saved
        let changes := computeChanges (oldValues task) populated
        let actions :=
          if changes.length > 0 then
            db.actions ++ [{ type := .update, taskId := saved._id, userId := userId,
                             details := .changes changes }]
          else db.actions
        (.task 200 populated, { db with tasks := tasks, actions := actions })

/-! ## Delete -/

/-- The handler `router.delete('/:id')`. -/
def deleteTask (id : ObjectId) (userId : ObjectId) (db : Db) : Response × Db :=
  match findById db.tasks id with
  | none => (.message 404 "Task not found", db)
  | some task =>
    let action : Action :=
      { type := .delete, taskId := task._id, userId := userId,
        details := .titleStatus task.title task.status }
    (.message 200 "Task deleted successfully",
     { db with tasks := deleteById db.tasks id, actions := db.actions ++ [action] })

/-! ## Smart assign -/

/-- The status filter of the aggregation: `status: { $in: ['Todo', 'In Progress'] }`. -/
def isActiveStatus (status : String) : Bool :=
  ["Todo", "In Progress"].contains status

/-- The `$match` stage: the assignees of the tasks with an active status and a
non-null `assignedTo`, one occurrence per task. -/
def matchedAssignees (tasks : List Task) : List ObjectId :=
  tasks.filterMap (fun t => if isActiveStatus t.status then t.assignedTo else none)

/-- The aggregation `Task.aggregate([{ $match }, { $group: { _id: '$assignedTo',
count: { $sum: 1 } } }])`: one `{ _id, count }` item per assignee. -/
def aggregateActive (tasks : List Task) : List (ObjectId × Nat) :=
  (matchedAssignees tasks).dedup.map (fun u => (u, (matchedAssignees tasks).count u))

/-- The loop filling `taskCountMap`: a later item with the same key overwrites. -/
def taskCountMap (items : List (ObjectId × Nat)) : ObjectId → Option Nat :=
  items.foldl (fun m item => fun k => if k = item.1 then some item.2 else m k) (fun _ => none)

/-- The expression `taskCountMap.get(user._id.toString()) || 0`. -/
def taskCountOf (m : ObjectId → Option Nat) (user : User) : Nat :=
  match m user._id with
  | none => 0
  | some c => c

/-- The comparison `taskCount < minTasks`, where `none` stands for `Infinity`. -/
def belowMin (taskCount : Nat) (minTasks : Option Nat) : Bool :=
  match minTasks with
  | none => true
  | some m => taskCount < m

/-- One turn of `users.forEach`: the pair `(selectedUser, minTasks)` after the turn. -/
def selectStep (m : ObjectId → Option Nat) (acc : Option User × Option Nat) (user : User) :
    Option User × Option Nat :=
  if belowMin (taskCountOf m user) acc.2 then (some user, some (taskCountOf m user)) else acc

/-- The selection loop, started from `selectedUser = null`, `minTasks = Infinity`. -/
def selectUser (m : ObjectId → Option Nat) (users : List User) : Option User × Option Nat :=
  users.foldl (selectStep m) (none, none)

/-- The handler `router.post('/:id/smart-assign')`, run by the authenticated user
`userId`. The save goes through the same model hook as every other save. -/
def smartAssign (id : ObjectId) (userId : ObjectId) (db : Db) : Response × Db :=
  match findById db.tasks id with
  | none => (.message 404 "Task not found", db)
  | some task =>
    let counts := taskCountMap (aggregateActive db.tasks)
    match selectUser counts db.users with
    | (some selectedUser, some minTasks) =>
      let saved := bumpVersion { task with assignedTo := some selectedUser._id }
      let action : Action :=
        { type := .smart_assign, taskId := saved._id, userId := userId,
          details := .smartAssign selectedUser.username task.assignedTo minTasks }
      (.task 200 (populate db.users saved),
       { db with tasks := saveExisting db.tasks saved, actions := db.actions ++ [action] })
    | _ => (.message 400 "No users available for assignment", db)

/-! ## Presence and editing sessions (socket handlers) -/

/-- A connected socket after `authenticateSocket`: its id and the user it belongs to. -/
structure Socket where
  id : Nat
  userId : ObjectId
  username : String
deriving DecidableEq, Repr

/-- A value of the `activeUsers` map. -/
structure PresenceEntry where
  socketId : Nat
  username : String
  lastSeen : Nat
deriving DecidableEq, Repr

/-- The method `Map.prototype.has`. A JavaScript Map is kept as its list of entries
in insertion order. -/
def mapHas {K V : Type} [DecidableEq K] (m : List (K × V)) (k : K) : Bool :=
  m.any (fun e => e.1 == k)

/-- The method `Map.prototype.get`. -/
def mapGet {K V : Type} [DecidableEq K] (m : List (K × V)) (k : K) : Option V :=
  (m.find? (fun e => e.1 == k)).map Prod.snd

/-- The method `Map.prototype.set`: an existing key keeps its place, a new key goes last. -/
def mapSet {K V : Type} [DecidableEq K] : List (K × V) → K → V → List (K × V)
  | [], k, v => [(k, v)]
  | e :: m, k, v => if e.1 == k then (k, v) :: m else e :: mapSet m k v

/-- The method `Map.prototype.delete`. -/
def mapDelete {K V : Type} [DecidableEq K] (m : List (K × V)) (k : K) : List (K × V) :=
  m.filter (fun e => e.1 != k)

/-- The method `Set.prototype.add` on a Set kept as its list of members in insertion order. -/
def setAdd {A : Type} [DecidableEq A] (s : List A) (a : A) : List A :=
  if a ∈ s then s else s ++ [a]

/-- The method `Set.prototype.delete`. -/
def setDelete {A : Type} [DecidableEq A] (s : List A) (a : A) : List A :=
  s.filter (fun b => b != a)

/-- The two process-wide maps of `index.js`. -/
structure Hub where
  activeUsers : List (ObjectId × PresenceEntry)
  taskEditSessions : List (Nat × List ObjectId)
deriving DecidableEq, Repr

/-- What a handler sends with `io.emit`. -/
inductive Emit where
  | activeUsers (entries : List PresenceEntry)
  | editingConflict (taskId : Nat) (editors : List ObjectId)
deriving DecidableEq, Repr

/-- The array `Array.from(activeUsers.values())`. -/
def presenceSnapshot (m : List (ObjectId × PresenceEntry)) : List PresenceEntry :=
  m.map Prod.snd

/-- The body of `io.on('connection')` up to the first emit; `now` is `new Date()`. -/
def connection (socket : Socket) (now : Nat) (hub : Hub) : Hub × List Emit :=
  let users := mapSet hub.activeUsers socket.userId
    { socketId := socket.id, username := socket.username, lastSeen := now }
  ({ hub with activeUsers := users }, [.activeUsers (presenceSnapshot users)])

/-- The handler `socket.on('startEditingTask')`. -/
def startEditingTask (socket : Socket) (taskId : Nat) (hub : Hub) : Hub × List Emit :=
  let sessions :=
    if !mapHas hub.taskEditSessions taskId then mapSet hub.taskEditSessions taskId []
    else hub.taskEditSessions
  let editors := setAdd ((mapGet sessions taskId).getD []) socket.userId
  let sessions := mapSet sessions taskId editors
  ({ hub with taskEditSessions := sessions },
   if editors.length > 1 then [.editingConflict taskId editors] else [])

/-- The handler `socket.on('stopEditingTask')`. -/
def stopEditingTask (socket : Socket) (taskId : Nat) (hub : Hub) : Hub × List Emit :=
  if mapHas hub.taskEditSessions taskId then
    let editors := setDelete ((mapGet hub.taskEditSessions taskId).getD []) socket.userId
    let sessions := mapSet hub.taskEditSessions taskId editors
    if editors.length = 0 then
      ({ hub with taskEditSessions := mapDelete sessions taskId }, [])
    else ({ hub with taskEditSessions := sessions }, [])
  else (hub, [])

/-- The clean-up loop of the disconnect handler: every entry loses the user, and an
entry whose set is then empty is deleted from the map (keys of a Map are distinct, so
`taskEditSessions.delete(taskId)` removes exactly the entry being visited). -/
def cleanSessions (sessions : List (Nat × List ObjectId)) (userId : ObjectId) :
    List (Nat × List ObjectId) :=
  sessions.filterMap (fun e =>
    let editors := setDelete e.2 userId
    if editors.length = 0 then none else some (e.1, editors))

/-- The handler `socket.on('disconnect')`. -/
def disconnect (socket : Socket) (hub : Hub) : Hub × List Emit :=
  let users := mapDelete hub.activeUsers socket.userId
  ({ activeUsers := users, taskEditSessions := cleanSessions hub.taskEditSessions socket.userId },
   [.activeUsers (presenceSnapshot users)])

/-! ## Requests as data -/

/-- The four mutating routes of the task router. -/
inductive Request where
  | create (body : CreateBody)
  | update (id : ObjectId) (body : UpdateBody)
  | delete (id : ObjectId)
  | smartAssign (id : ObjectId)
deriving DecidableEq, Repr

/-- Route dispatch. -/
def handle (req : Request) (userId : ObjectId) (db : Db) : Response × Db :=
  match req with
  | .create body => createTask body userId db
  | .update id body => updateTask id body userId db
  | .delete id => deleteTask id userId db
  | .smartAssign id => smartAssign id userId db

/-- A response with an error status: 400, 404 or 409. -/
def Response.isError : Response → Bool
  | .task _ _ => false
  | .message code _ => decide (400 ≤ code)
  | .conflict _ _ => true

/-- A sample database: one task assigned to the only user. -/
def sampleDb : Db :=
  { tasks := [{ _id := 1, title := "Write report", description := "", status := "Todo",
                priority := "Medium", assignedTo := some 7, createdBy := 7, version := 1 }],
    users := [{ _id := 7, username := "ann", email := "ann@example.org" }],
    actions := [],
    nextId := 2 }

/-! ## Predicates, derived notions and sample data used in the statements -/

/-- An update body with no key at all. -/
def emptyUpdate : UpdateBody :=
  { title := none, description := none, status := none, priority := none,
    assignedTo := none, version := none }

/-- An update body with a reserved title and every other key present. -/
def reservedTitleUpdate : UpdateBody :=
  { title := some "Done", description := some "changed", status := some "Done",
    priority := some "High", assignedTo := some none, version := some 1 }

/-- An update body that sends version 0 with a new description. -/
def versionZeroUpdate : UpdateBody :=
  { emptyUpdate with description := some "x", version := some 0 }

/-- A create body whose title trims to a reserved column name. -/
def paddedTodoCreate : CreateBody :=
  { title := some " Todo ", description := none, priority := none, assignedTo := none }

/-- No two stored tasks share a title. -/
def TitlesUnique (db : Db) : Prop := (db.tasks.map Task.title).Nodup

/-- The primary key of the task collection: stored `_id`s are pairwise distinct
and older than the next fresh id. -/
def IdsUnique (db : Db) : Prop :=
  (db.tasks.map Task._id).Nodup ∧ ∀ t ∈ db.tasks, t._id < db.nextId

/-- A database with two tasks and one user. -/
def twoTaskDb : Db :=
  { sampleDb with
    tasks := sampleDb.tasks ++ [newTask 2 "Fix bug" "" "Medium" none 7]
    nextId := 3 }

/-- An update body that renames a task to the (padded) title of another task. -/
def renameUpdate : UpdateBody := { emptyUpdate with title := some " Fix bug " }

/-- The number of stored tasks assigned to `uid` whose status is Todo or In Progress. -/
def activeCount (tasks : List Task) (uid : ObjectId) : Nat :=
  (tasks.filter (fun t => isActiveStatus t.status && t.assignedTo == some uid)).length

/-- Users U1, U2, U3 (ids 1, 2, 3) enumerated in that order; U1 and U3 each hold one
active task, U2 holds two, and task 10 is unassigned and done. -/
def tieDb : Db :=
  { tasks := [newTask 11 "a" "" "Medium" (some 1) 1,
              newTask 12 "b" "" "Medium" (some 2) 1,
              { newTask 13 "c" "" "Medium" (some 2) 1 with status := "In Progress" },
              newTask 14 "d" "" "Medium" (some 3) 1,
              { newTask 15 "e" "" "Medium" (some 3) 1 with status := "Done" },
              { newTask 10 "f" "" "Medium" none 1 with status := "Done" }],
    users := [User.mk 1 "U1" "u1@example.org", User.mk 2 "U2" "u2@example.org",
              User.mk 3 "U3" "u3@example.org"],
    actions := [],
    nextId := 16 }

/-- Users U1 and U2: U1 holds no active task, U2 holds two. -/
def idleDb : Db :=
  { tasks := [newTask 12 "b" "" "Medium" (some 2) 1,
              { newTask 13 "c" "" "Medium" (some 2) 1 with status := "In Progress" },
              { newTask 10 "f" "" "Medium" none 1 with status := "Done" }],
    users := [User.mk 1 "U1" "u1@example.org", User.mk 2 "U2" "u2@example.org"],
    actions := [],
    nextId := 16 }

/-- The editor set of a task: `taskEditSessions.get(taskId)`, empty when there is no entry. -/
def editorsOf (hub : Hub) (taskId : Nat) : List ObjectId :=
  (mapGet hub.taskEditSessions taskId).getD []

/-- The hub before any connection. -/
def emptyHub : Hub := { activeUsers := [], taskEditSessions := [] }

/-- Sockets of the actors A, B and C (user ids 1, 2, 3). -/
def socketA : Socket := { id := 101, userId := 1, username := "A" }

/-- Socket of actor B. -/
def socketB : Socket := { id := 102, userId := 2, username := "B" }

/-- Socket of actor C. -/
def socketC : Socket := { id := 103, userId := 3, username := "C" }

/-- A hub in which task 5 is edited by A and B. -/
def contestedHub : Hub := { activeUsers := [], taskEditSessions := [(5, [1, 2])] }

/-- The hub after A started editing task 5. -/
def hubA : Hub := (startEditingTask socketA 5 emptyHub).1

/-- The hub after A and then B started editing task 5. -/
def hubAB : Hub := (startEditingTask socketB 5 hubA).1

/-- The hub after A, B and then C started editing task 5. -/
def hubABC : Hub := (startEditingTask socketC 5 hubAB).1

/-- The user is a member of the editor set of some entry for the task. -/
def isEditing (hub : Hub) (taskId : Nat) (userId : ObjectId) : Prop :=
  ∃ e ∈ hub.taskEditSessions, e.1 = taskId ∧ userId ∈ e.2

/-- A hub with A, B and C present, task 5 edited by A and B, task 6 by A alone. -/
def busyHub : Hub :=
  { activeUsers := [(1, PresenceEntry.mk 101 "A" 10), (2, PresenceEntry.mk 102 "B" 11),
                    (3, PresenceEntry.mk 103 "C" 12)],
    taskEditSessions := [(5, [1, 2]), (6, [1])] }

/-- A transport event: a socket connects (at time `now`) or disconnects. -/
inductive SocketEvent where
  | connect (socket : Socket) (now : Nat)
  | disconnect (socket : Socket)
deriving DecidableEq, Repr

/-- The socket of an event. -/
def SocketEvent.socket : SocketEvent → Socket
  | .connect s _ => s
  | .disconnect s => s

/-- Whether the event is a connect. -/
def SocketEvent.isConnect : SocketEvent → Bool
  | .connect _ _ => true
  | .disconnect _ => false

/-- The hub after the handler of one event ran. -/
def applyEvent (hub : Hub) : SocketEvent → Hub
  | .connect s now => (connection s now hub).1
  | .disconnect s => (disconnect s hub).1

/-- The hub after the handlers of a sequence of events ran in order, from the empty hub. -/
def runEvents (events : List SocketEvent) : Hub :=
  events.foldl applyEvent emptyHub

/-- The sockets still connected after a sequence of events: a connect adds the
socket, a disconnect removes it. -/
def connectedSockets (events : List SocketEvent) : List Socket :=
  events.foldl (fun live e =>
    match e with
    | .connect s _ => live ++ [s]
    | .disconnect s => live.filter (fun x => x.id != s.id)) []

/-- Whether the latest event of any socket of the user is a connect. -/
def lastEventIsConnect (events : List SocketEvent) (userId : ObjectId) : Bool :=
  match (events.filter (fun e => e.socket.userId == userId)).getLast? with
  | some e => e.isConnect
  | none => false

/-- A second socket of actor A. -/
def socketA2 : Socket := { id := 104, userId := 1, username := "A" }

/-- Actor A connects on two sockets and then the first one disconnects. -/
def twoSessionTrace : List SocketEvent :=
  [.connect socketA 10, .connect socketA2 11, .disconnect socketA]

/-! # Theorems -/

/-! ## Branch equations of the handlers -/

theorem createTask_ok_eq (body : CreateBody) (userId : ObjectId) (db : Db) (title : String)
    (ht : body.title = some title) (h1 : ¬ (title = "" ∨ (jsTrim title).length = 0))
    (h2 : forbiddenTitles.contains (jsTrim title) = false)
    (h3 : findOneByTitle db.tasks (jsTrim title) = none) :
    createTask body userId db =
      (.task 201 (populate db.users (newTask db.nextId (jsTrim title)
          (orDefault (body.description.map jsTrim) "") (orDefault body.priority "Medium")
          body.assignedTo userId)),
       { db with
         tasks := db.tasks ++ [newTask db.nextId (jsTrim title)
          (orDefault (body.description.map jsTrim) "") (orDefault body.priority "Medium")
          body.assignedTo userId],
         actions := db.actions ++ [{ type := .create, taskId := db.nextId, userId := userId,
                                     details := .titleStatus (jsTrim title) "Todo" }],
         nextId := db.nextId + 1 }) := by
  simp only [createTask, ht, h1, h2, h3, if_false, Bool.false_eq_true, newTask]

theorem createTask_absent_eq (body : CreateBody) (userId : ObjectId) (db : Db)
    (ht : body.title = none) :
    createTask body userId db = (.message 400 "Title is required", db) := by
  simp only [createTask, ht]

theorem createTask_required_eq (body : CreateBody) (userId : ObjectId) (db : Db) (title : String)
    (ht : body.title = some title) (h1 : title = "" ∨ (jsTrim title).length = 0) :
    createTask body userId db = (.message 400 "Title is required", db) := by
  simp only [createTask, ht, h1, if_true]

theorem createTask_forbidden_eq (body : CreateBody) (userId : ObjectId) (db : Db)
    (title : String) (ht : body.title = some title)
    (h1 : ¬ (title = "" ∨ (jsTrim title).length = 0))
    (h2 : forbiddenTitles.contains (jsTrim title) = true) :
    createTask body userId db = (.message 400 "Task title cannot match column names", db) := by
  simp only [createTask, ht, h1, h2, if_true, if_false]

theorem createTask_duplicate_eq (body : CreateBody) (userId : ObjectId) (db : Db)
    (title : String) (t : Task) (ht : body.title = some title)
    (h1 : ¬ (title = "" ∨ (jsTrim title).length = 0))
    (h2 : forbiddenTitles.contains (jsTrim title) = false)
    (h3 : findOneByTitle db.tasks (jsTrim title) = some t) :
    createTask body userId db = (.message 400 "Task title must be unique", db) := by
  simp only [createTask, ht, h1, h2, h3, if_false, Bool.false_eq_true]

theorem updateTask_notFound_eq (id : ObjectId) (body : UpdateBody) (userId : ObjectId) (db : Db)
    (h : findById db.tasks id = none) :
    updateTask id body userId db = (.message 404 "Task not found", db) := by
  simp only [updateTask, h]

theorem updateTask_conflict_eq (id : ObjectId) (body : UpdateBody) (userId : ObjectId) (db : Db)
    (task : Task) (h : findById db.tasks id = some task)
    (hv : versionConflict body.version task.version = true) :
    updateTask id body userId db = (.conflict "Conflict detected" task, db) := by
  simp only [updateTask, h, hv, if_true]

theorem updateTask_titleError_eq (id : ObjectId) (body : UpdateBody) (userId : ObjectId)
    (db : Db) (task : Task) (r : Response) (h : findById db.tasks id = some task)
    (hv : versionConflict body.version task.version = false)
    (ht : applyTitle db.tasks task body.title = .error r) :
    updateTask id body userId db = (r, db) := by
  simp only [updateTask, h, hv, ht, Bool.false_eq_true, if_false]

theorem updateTask_ok_eq (id : ObjectId) (body : UpdateBody) (userId : ObjectId)
    (db : Db) (task titled : Task) (h : findById db.tasks id = some task)
    (hv : versionConflict body.version task.version = false)
    (ht : applyTitle db.tasks task body.title = .ok titled) :
    updateTask id body userId db =
      (.task 200 (populate db.users (bumpVersion (applyFields titled body))),
       { db with
         tasks := saveExisting db.tasks (bumpVersion (applyFields titled body)),
         actions :=
          if (computeChanges (oldValues task)
                (populate db.users (bumpVersion (applyFields titled body)))).length > 0 then
            db.actions ++ [{ type := .update, taskId := (bumpVersion (applyFields titled body))._id,
                             userId := userId,
                             details := .changes (computeChanges (oldValues task)
                               (populate db.users (bumpVersion (applyFields titled body)))) }]
          else db.actions }) := by
  simp only [updateTask, h, hv, ht, Bool.false_eq_true, if_false]

theorem deleteTask_notFound_eq (id : ObjectId) (userId : ObjectId) (db : Db)
    (h : findById db.tasks id = none) :
    deleteTask id userId db = (.message 404 "Task not found", db) := by
  simp only [deleteTask, h]

theorem deleteTask_ok_eq (id : ObjectId) (userId : ObjectId) (db : Db) (task : Task)
    (h : findById db.tasks id = some task) :
    deleteTask id userId db =
      (.message 200 "Task deleted successfully",
       { db with tasks := deleteById db.tasks id,
                 actions := db.actions ++ [{ type := .delete, taskId := task._id, userId := userId,
                                             details := .titleStatus task.title task.status }] }) := by
  simp only [deleteTask, h]

theorem smartAssign_notFound_eq (id : ObjectId) (userId : ObjectId) (db : Db)
    (h : findById db.tasks id = none) :
    smartAssign id userId db = (.message 404 "Task not found", db) := by
  simp only [smartAssign, h]

theorem smartAssign_ok_eq (id : ObjectId) (userId : ObjectId) (db : Db) (task : Task)
    (u : User) (c : Nat) (h : findById db.tasks id = some task)
    (hs : selectUser (taskCountMap (aggregateActive db.tasks)) db.users = (some u, some c)) :
    smartAssign id userId db =
      (.task 200 (populate db.users (bumpVersion { task with assignedTo := some u._id })),
       { db with
         tasks := saveExisting db.tasks (bumpVersion { task with assignedTo := some u._id }),
         actions := db.actions ++ [{ type := .smart_assign, taskId := task._id, userId := userId,
                                     details := .smartAssign u.username task.assignedTo c }] }) := by
  simp only [smartAssign, h, hs, bumpVersion]

/-! ## Atomicity of failed mutations -/

theorem createTask_error_state (body : CreateBody) (userId : ObjectId) (db : Db)
    (h : (createTask body userId db).1.isError = true) : (createTask body userId db).2 = db := by
  cases ht : body.title with
  | none => rw [createTask_absent_eq body userId db ht]
  | some title =>
    by_cases h1 : title = "" ∨ (jsTrim title).length = 0
    · rw [createTask_required_eq body userId db title ht h1]
    · cases h2 : forbiddenTitles.contains (jsTrim title) with
      | true => rw [createTask_forbidden_eq body userId db title ht h1 h2]
      | false =>
        cases h3 : findOneByTitle db.tasks (jsTrim title) with
        | some t => rw [createTask_duplicate_eq body userId db title t ht h1 h2 h3]
        | none =>
          rw [createTask_ok_eq body userId db title ht h1 h2 h3] at h
          simp [Response.isError] at h

theorem updateTask_error_state (id : ObjectId) (body : UpdateBody) (userId : ObjectId) (db : Db)
    (h : (updateTask id body userId db).1.isError = true) :
    (updateTask id body userId db).2 = db := by
  cases hf : findById db.tasks id with
  | none => rw [updateTask_notFound_eq id body userId db hf]
  | some task =>
    cases hv : versionConflict body.version task.version with
    | true => rw [updateTask_conflict_eq id body userId db task hf hv]
    | false =>
      cases ht : applyTitle db.tasks task body.title with
      | error r => rw [updateTask_titleError_eq id body userId db task r hf hv ht]
      | ok titled =>
        rw [updateTask_ok_eq id body userId db task titled hf hv ht] at h
        simp [Response.isError] at h

theorem deleteTask_error_state (id : ObjectId) (userId : ObjectId) (db : Db)
    (h : (deleteTask id userId db).1.isError = true) : (deleteTask id userId db).2 = db := by
  cases hf : findById db.tasks id with
  | none => rw [deleteTask_notFound_eq id userId db hf]
  | some task =>
    rw [deleteTask_ok_eq id userId db task hf] at h
    simp [Response.isError] at h

theorem smartAssign_state_of_not_selected (id : ObjectId) (userId : ObjectId) (db : Db)
    (task : Task) (h : findById db.tasks id = some task)
    (hs : ∀ u c, selectUser (taskCountMap (aggregateActive db.tasks)) db.users ≠ (some u, some c)) :
    smartAssign id userId db = (.message 400 "No users available for assignment", db) := by
  unfold smartAssign
  simp only [h]

theorem smartAssign_error_state (id : ObjectId) (userId : ObjectId) (db : Db)
    (h : (smartAssign id userId db).1.isError = true) : (smartAssign id userId db).2 = db := by
  cases hf : findById db.tasks id with
  | none => rw [smartAssign_notFound_eq id userId db hf]
  | some task =>
    by_cases hs : ∃ u c, selectUser (taskCountMap (aggregateActive db.tasks)) db.users
        = (some u, some c)
    · obtain ⟨u, c, hs⟩ := hs
      rw [smartAssign_ok_eq id userId db task u c hf hs] at h
      simp [Response.isError] at h
    · rw [smartAssign_state_of_not_selected id userId db task hf
        (fun u c hc => hs ⟨u, c, hc⟩)]

/-- C10: a request to create, update, delete or smart-assign that is answered with
an error status (404 not found, 409 conflict, 400 validation) leaves the whole
database as it was: no field of any stored task changes and no Action is added. -/
theorem mutation_errors_atomic (req : Request) (userId : ObjectId) (db : Db)
    (h : (handle req userId db).1.isError = true) : (handle req userId db).2 = db := by
  cases req with
  | create body => exact createTask_error_state body userId db h
  | update id body => exact updateTask_error_state id body userId db h
  | delete id => exact deleteTask_error_state id userId db h
  | smartAssign id => exact smartAssign_error_state id userId db h

/-- An update with a reserved title and every other field present is rejected and
applies none of the other fields. -/
theorem mutation_errors_atomic_witness :
    (handle (.update 1 reservedTitleUpdate) 7 sampleDb).1
      = .message 400 "Task title cannot match column names" ∧
    (handle (.update 1 reservedTitleUpdate) 7 sampleDb).2 = sampleDb :=
  ⟨by decide, mutation_errors_atomic _ 7 sampleDb (by decide)⟩

/-! ## Version check -/

/-- A supplied version that is not 0 and differs from the stored one is answered
with 409 and the current task, and nothing is written. -/
theorem updateTask_stale_nonzero_version (id : ObjectId) (body : UpdateBody) (userId : ObjectId)
    (db : Db) (task : Task) (v : Int) (hf : findById db.tasks id = some task)
    (hv : body.version = some v) (h0 : v ≠ 0) (hne : task.version ≠ v) :
    updateTask id body userId db = (.conflict "Conflict detected" task, db) := by
  apply updateTask_conflict_eq id body userId db task hf
  simp [versionConflict, hv, h0, hne]

/-- C1: the stored task has version 1 and the request supplies version 0 together
with a new description; the handler answers 200, rewrites the stored task and appends
an Action instead of answering 409. -/
theorem updateTask_version_zero_accepted :
    (findById sampleDb.tasks 1).map Task.version = some 1 ∧
    (updateTask 1 versionZeroUpdate 7 sampleDb).1.isError = false ∧
    ((updateTask 1 versionZeroUpdate 7 sampleDb).2.tasks.map Task.description)
      = ["x"] ∧
    (updateTask 1 versionZeroUpdate 7 sampleDb).2.actions.length = 1 := by
  decide

/-! ## Change diff -/

/-- C2: the stored task is assigned to user 7 and the request carries no field at
all; title, description, status, priority and assignedTo are stored unchanged, yet an
Action of type update is written whose details report `assignedTo` as changed from the
ObjectId to the populated user document. -/
theorem updateTask_noop_with_assignee_logs :
    ((updateTask 1 emptyUpdate 7 sampleDb).2.tasks.map
        (fun t => (t.title, t.description, t.status, t.priority, t.assignedTo)))
      = (sampleDb.tasks.map
        (fun t => (t.title, t.description, t.status, t.priority, t.assignedTo))) ∧
    (updateTask 1 emptyUpdate 7 sampleDb).1.isError = false ∧
    (updateTask 1 emptyUpdate 7 sampleDb).2.actions = [Action.mk .update 1 7
      (.changes [("assignedTo", Change.mk (.oid 7) (.doc (User.mk 7 "ann" "ann@example.org")))])] := by
  decide

/-! ## Title validation on create -/

theorem length_eq_zero_iff (s : String) : s.length = 0 ↔ s = "" := by
  constructor
  · intro h
    cases s with
    | mk data =>
      have hd : data = [] := List.length_eq_zero.mp h
      subst hd
      rfl
  · rintro rfl
    rfl

theorem title_required_iff (title : String) :
    (title = "" ∨ (jsTrim title).length = 0) ↔ jsTrim title = "" := by
  rw [length_eq_zero_iff]
  constructor
  · rintro (rfl | h)
    · rfl
    · exact h
  · exact Or.inr

theorem findOneByTitle_eq_none_iff (tasks : List Task) (x : String) :
    findOneByTitle tasks x = none ↔ ∀ t ∈ tasks, t.title ≠ x := by
  simp [findOneByTitle]

/-- C3: for a request that carries a title, `POST /` answers 400 exactly when the
trimmed title is empty, is one of the reserved column names, or is the title of a
stored task (exact match); a 400 answer leaves tasks and actions untouched; otherwise
the answer is 201; the titles "Todo" and " Todo " are answered with 400. -/
theorem createTask_validation (body : CreateBody) (userId : ObjectId) (db : Db)
    (title : String) (ht : body.title = some title) :
    ((∃ msg, (createTask body userId db).1 = .message 400 msg) ↔
      (jsTrim title = "" ∨ jsTrim title ∈ forbiddenTitles ∨
        ∃ t ∈ db.tasks, t.title = jsTrim title)) ∧
    ((∃ msg, (createTask body userId db).1 = .message 400 msg) →
      (createTask body userId db).2 = db) ∧
    ((¬ ∃ msg, (createTask body userId db).1 = .message 400 msg) →
      ∃ t, (createTask body userId db).1 = .task 201 t) ∧
    (title = "Todo" ∨ title = " Todo " →
      createTask body userId db = (.message 400 "Task title cannot match column names", db)) := by
  by_cases h1 : title = "" ∨ (jsTrim title).length = 0
  · have he := createTask_required_eq body userId db title ht h1
    have h1' := (title_required_iff title).1 h1
    refine ⟨?_, ?_, ?_, ?_⟩
    · rw [he]; exact ⟨fun _ => Or.inl h1', fun _ => ⟨_, rfl⟩⟩
    · intro _; rw [he]
    · intro hn; exact absurd ⟨_, by rw [he]⟩ hn
    · rintro (rfl | rfl) <;> exact absurd h1' (by decide)
  · have h1' : jsTrim title ≠ "" := fun h => h1 ((title_required_iff title).2 h)
    cases h2 : forbiddenTitles.contains (jsTrim title) with
    | true =>
      have he := createTask_forbidden_eq body userId db title ht h1 h2
      have h2' : jsTrim title ∈ forbiddenTitles := by simpa using h2
      refine ⟨?_, ?_, ?_, ?_⟩
      · rw [he]; exact ⟨fun _ => Or.inr (Or.inl h2'), fun _ => ⟨_, rfl⟩⟩
      · intro _; rw [he]
      · intro hn; exact absurd ⟨_, by rw [he]⟩ hn
      · intro _; exact he
    | false =>
      have h2' : jsTrim title ∉ forbiddenTitles := by
        intro hm
        have : forbiddenTitles.contains (jsTrim title) = true := by simpa using hm
        rw [h2] at this
        exact Bool.false_ne_true this
      cases h3 : findOneByTitle db.tasks (jsTrim title) with
      | some t =>
        have he := createTask_duplicate_eq body userId db title t ht h1 h2 h3
        have hmem : ∃ t ∈ db.tasks, t.title = jsTrim title := by
          by_contra hc
          have : findOneByTitle db.tasks (jsTrim title) = none :=
            (findOneByTitle_eq_none_iff _ _).2 (fun t ht heq => hc ⟨t, ht, heq⟩)
          rw [h3] at this
          exact Option.noConfusion this
        refine ⟨?_, ?_, ?_, ?_⟩
        · rw [he]; exact ⟨fun _ => Or.inr (Or.inr hmem), fun _ => ⟨_, rfl⟩⟩
        · intro _; rw [he]
        · intro hn; exact absurd ⟨_, by rw [he]⟩ hn
        · rintro (rfl | rfl) <;> exact absurd h2 (by decide)
      | none =>
        have he := createTask_ok_eq body userId db title ht h1 h2 h3
        have hnone := (findOneByTitle_eq_none_iff _ _).1 h3
        have hno : ¬ ∃ msg, (createTask body userId db).1 = .message 400 msg := by
          rw [he]
          rintro ⟨msg, hm⟩
          exact Response.noConfusion hm
        refine ⟨?_, ?_, ?_, ?_⟩
        · constructor
          · intro h; exact absurd h hno
          · rintro (h | h | ⟨t, htm, heq⟩)
            · exact absurd h h1'
            · exact absurd h h2'
            · exact absurd heq (hnone t htm)
        · intro h; exact absurd h hno
        · intro _; rw [he]; exact ⟨_, rfl⟩
        · rintro (rfl | rfl) <;> exact absurd h2 (by decide)

/-- The title " Todo " trims to a reserved column name and is rejected. -/
theorem createTask_validation_witness :
    (∃ msg, (createTask paddedTodoCreate 7 sampleDb).1 = .message 400 msg) ∧
    (createTask paddedTodoCreate 7 sampleDb).2 = sampleDb :=
  have h := createTask_validation paddedTodoCreate 7 sampleDb " Todo " rfl
  ⟨h.1.2 (Or.inr (Or.inl (by decide))), h.2.1 (h.1.2 (Or.inr (Or.inl (by decide))))⟩

/-! ## Title uniqueness -/

theorem findById_some {tasks : List Task} {id : ObjectId} {t : Task}
    (h : findById tasks id = some t) : t ∈ tasks ∧ t._id = id := by
  unfold findById at h
  exact ⟨List.mem_of_find?_eq_some h, by simpa using List.find?_some h⟩

theorem saveExisting_map_id (tasks : List Task) (t : Task) :
    (saveExisting tasks t).map Task._id = tasks.map Task._id := by
  unfold saveExisting
  rw [List.map_map]
  apply List.map_congr_left
  intro s _
  by_cases h : s._id = t._id <;> simp [h]

theorem saveExisting_mem_id (tasks : List Task) (t s : Task) (hs : s ∈ saveExisting tasks t) :
    ∃ s0 ∈ tasks, s0._id = s._id := by
  unfold saveExisting at hs
  rw [List.mem_map] at hs
  obtain ⟨s0, hs0, heq⟩ := hs
  refine ⟨s0, hs0, ?_⟩
  by_cases h : s0._id = t._id
  · simp [h] at heq
    rw [← heq, h]
  · simp [h] at heq
    rw [heq]

theorem saveExisting_titles_nodup (tasks : List Task) (task saved : Task)
    (hmem : task ∈ tasks) (hid : saved._id = task._id)
    (hids : (tasks.map Task._id).Nodup) (htit : (tasks.map Task.title).Nodup)
    (hnew : saved.title = task.title ∨
      ∀ y ∈ tasks, y._id ≠ task._id → y.title ≠ saved.title) :
    ((saveExisting tasks saved).map Task.title).Nodup := by
  unfold saveExisting
  rw [List.map_map]
  have idinj := List.inj_on_of_nodup_map hids
  have tinj := List.inj_on_of_nodup_map htit
  apply List.Nodup.map_on _ (List.Nodup.of_map _ hids)
  intro x hx y hy hxy
  have key : ∀ z ∈ tasks, z._id ≠ saved._id → z.title ≠ saved.title := by
    intro z hz hne heq
    rcases hnew with h | h
    · have : z = task := tinj hz hmem (heq.trans h)
      exact hne (by rw [this, hid])
    · exact h z hz (by rw [← hid]; exact hne) heq
  by_cases hx1 : x._id = saved._id <;> by_cases hy1 : y._id = saved._id
  · exact idinj hx hy (hx1.trans hy1.symm)
  · simp [hx1, hy1] at hxy
    exact absurd hxy.symm (key y hy hy1)
  · simp [hx1, hy1] at hxy
    exact absurd hxy (key x hx hx1)
  · simp [hx1, hy1] at hxy
    exact tinj hx hy hxy

theorem applyFields_id (t : Task) (body : UpdateBody) : (applyFields t body)._id = t._id := by
  unfold applyFields
  cases body.description <;> cases body.status <;> cases body.priority <;>
    cases body.assignedTo <;> rfl

theorem applyFields_title (t : Task) (body : UpdateBody) :
    (applyFields t body).title = t.title := by
  unfold applyFields
  cases body.description <;> cases body.status <;> cases body.priority <;>
    cases body.assignedTo <;> rfl

theorem findOneByTitleExcept_eq_none_iff (tasks : List Task) (x : String) (id : ObjectId) :
    findOneByTitleExcept tasks x id = none ↔ ∀ t ∈ tasks, t._id ≠ id → t.title ≠ x := by
  simp only [findOneByTitleExcept, List.find?_eq_none, Bool.and_eq_true, beq_iff_eq,
    bne_iff_ne, ne_eq, not_and, not_not]
  constructor
  · intro h t ht hne heq
    exact hne (h t ht heq)
  · intro h t ht heq
    by_contra hne
    exact h t ht hne heq

theorem applyTitle_ok (tasks : List Task) (task titled : Task) (title : Option String)
    (h : applyTitle tasks task title = .ok titled) :
    titled._id = task._id ∧
    (titled.title = task.title ∨
      ∀ y ∈ tasks, y._id ≠ task._id → y.title ≠ titled.title) := by
  unfold applyTitle at h
  split at h
  · cases h; exact ⟨rfl, Or.inl rfl⟩
  · split at h
    · cases h
    · split at h
      · cases h
      · split at h
        · split at h
          · cases h
          · rename_i hnone
            cases h
            exact ⟨rfl, Or.inr ((findOneByTitleExcept_eq_none_iff _ _ _).1 hnone)⟩
        · cases h; exact ⟨rfl, Or.inl rfl⟩

theorem createTask_inv (body : CreateBody) (userId : ObjectId) (db : Db)
    (hid : IdsUnique db) (hu : TitlesUnique db) :
    TitlesUnique (createTask body userId db).2 ∧ IdsUnique (createTask body userId db).2 := by
  cases ht : body.title with
  | none => rw [createTask_absent_eq body userId db ht]; exact ⟨hu, hid⟩
  | some title =>
    by_cases h1 : title = "" ∨ (jsTrim title).length = 0
    · rw [createTask_required_eq body userId db title ht h1]; exact ⟨hu, hid⟩
    · cases h2 : forbiddenTitles.contains (jsTrim title) with
      | true => rw [createTask_forbidden_eq body userId db title ht h1 h2]; exact ⟨hu, hid⟩
      | false =>
        cases h3 : findOneByTitle db.tasks (jsTrim title) with
        | some t =>
          rw [createTask_duplicate_eq body userId db title t ht h1 h2 h3]; exact ⟨hu, hid⟩
        | none =>
          rw [createTask_ok_eq body userId db title ht h1 h2 h3]
          have hnone := (findOneByTitle_eq_none_iff _ _).1 h3
          refine ⟨?_, ?_, ?_⟩
          · unfold TitlesUnique at hu ⊢
            simp only [List.map_append, List.map_cons, List.map_nil, newTask]
            rw [List.nodup_append]
            refine ⟨hu, List.nodup_singleton _, ?_⟩
            intro x hx hx2
            rw [List.mem_singleton] at hx2
            rw [List.mem_map] at hx
            obtain ⟨t, htm, heq⟩ := hx
            exact hnone t htm (heq.trans hx2)
          · simp only [List.map_append, List.map_cons, List.map_nil, newTask]
            rw [List.nodup_append]
            refine ⟨hid.1, List.nodup_singleton _, ?_⟩
            intro x hx hx2
            rw [List.mem_singleton] at hx2
            rw [List.mem_map] at hx
            obtain ⟨t, htm, heq⟩ := hx
            exact absurd (heq.trans hx2) (Nat.ne_of_lt (hid.2 t htm))
          · intro t htm
            simp only [List.mem_append, List.mem_singleton] at htm
            rcases htm with htm | rfl
            · exact Nat.lt_succ_of_lt (hid.2 t htm)
            · exact Nat.lt_succ_self _

theorem saveExisting_inv (db : Db) (task saved : Task) (actions : List Action)
    (hmem : task ∈ db.tasks) (hsid : saved._id = task._id)
    (hnew : saved.title = task.title ∨
      ∀ y ∈ db.tasks, y._id ≠ task._id → y.title ≠ saved.title)
    (hid : IdsUnique db) (hu : TitlesUnique db) :
    TitlesUnique { db with tasks := saveExisting db.tasks saved, actions := actions } ∧
    IdsUnique { db with tasks := saveExisting db.tasks saved, actions := actions } := by
  refine ⟨saveExisting_titles_nodup db.tasks task saved hmem hsid hid.1 hu hnew, ?_, ?_⟩
  · show ((saveExisting db.tasks saved).map Task._id).Nodup
    rw [saveExisting_map_id]
    exact hid.1
  · intro t ht
    obtain ⟨s0, hs0, heq⟩ := saveExisting_mem_id db.tasks saved t ht
    have hlt : s0._id < db.nextId := hid.2 s0 hs0
    rw [heq] at hlt
    exact hlt

theorem updateTask_inv (id : ObjectId) (body : UpdateBody) (userId : ObjectId) (db : Db)
    (hid : IdsUnique db) (hu : TitlesUnique db) :
    TitlesUnique (updateTask id body userId db).2 ∧
    IdsUnique (updateTask id body userId db).2 := by
  cases hf : findById db.tasks id with
  | none => rw [updateTask_notFound_eq id body userId db hf]; exact ⟨hu, hid⟩
  | some task =>
    cases hv : versionConflict body.version task.version with
    | true => rw [updateTask_conflict_eq id body userId db task hf hv]; exact ⟨hu, hid⟩
    | false =>
      cases ht : applyTitle db.tasks task body.title with
      | error r =>
        rw [updateTask_titleError_eq id body userId db task r hf hv ht]; exact ⟨hu, hid⟩
      | ok titled =>
        rw [updateTask_ok_eq id body userId db task titled hf hv ht]
        obtain ⟨htid, htt⟩ := applyTitle_ok db.tasks task titled body.title ht
        apply saveExisting_inv db task _ _ (findById_some hf).1 _ _ hid hu
        · show (applyFields titled body)._id = task._id
          rw [applyFields_id, htid]
        · show (applyFields titled body).title = task.title ∨
            ∀ y ∈ db.tasks, y._id ≠ task._id → y.title ≠ (applyFields titled body).title
          rw [applyFields_title]
          exact htt

theorem deleteTask_inv (id : ObjectId) (userId : ObjectId) (db : Db)
    (hid : IdsUnique db) (hu : TitlesUnique db) :
    TitlesUnique (deleteTask id userId db).2 ∧ IdsUnique (deleteTask id userId db).2 := by
  cases hf : findById db.tasks id with
  | none => rw [deleteTask_notFound_eq id userId db hf]; exact ⟨hu, hid⟩
  | some task =>
    rw [deleteTask_ok_eq id userId db task hf]
    have hsub : List.Sublist (deleteById db.tasks id) db.tasks := List.filter_sublist _
    refine ⟨?_, ?_, ?_⟩
    · exact List.Nodup.sublist (hsub.map Task.title) hu
    · exact List.Nodup.sublist (hsub.map Task._id) hid.1
    · intro t ht
      exact hid.2 t (hsub.subset ht)

theorem smartAssign_inv (id : ObjectId) (userId : ObjectId) (db : Db)
    (hid : IdsUnique db) (hu : TitlesUnique db) :
    TitlesUnique (smartAssign id userId db).2 ∧ IdsUnique (smartAssign id userId db).2 := by
  cases hf : findById db.tasks id with
  | none => rw [smartAssign_notFound_eq id userId db hf]; exact ⟨hu, hid⟩
  | some task =>
    by_cases hs : ∃ u c, selectUser (taskCountMap (aggregateActive db.tasks)) db.users
        = (some u, some c)
    · obtain ⟨u, c, hs⟩ := hs
      rw [smartAssign_ok_eq id userId db task u c hf hs]
      exact saveExisting_inv db task _ _ (findById_some hf).1 rfl (Or.inl rfl) hid hu
    · rw [smartAssign_state_of_not_selected id userId db task hf
        (fun u c hc => hs ⟨u, c, hc⟩)]
      exact ⟨hu, hid⟩

theorem updateTask_unique_check (id : ObjectId) (body : UpdateBody) (userId : ObjectId)
    (db : Db) (task : Task) (title : String) (hf : findById db.tasks id = some task)
    (hv : versionConflict body.version task.version = false)
    (ht : body.title = some title) (h1 : jsTrim title ≠ "")
    (h2 : jsTrim title ∉ forbiddenTitles) (h3 : jsTrim title ≠ task.title) :
    (updateTask id body userId db).1 = .message 400 "Task title must be unique" ↔
      ∃ t ∈ db.tasks, t._id ≠ id ∧ t.title = jsTrim title := by
  have h2' : forbiddenTitles.contains (jsTrim title) = false := by
    cases hc : forbiddenTitles.contains (jsTrim title) with
    | false => rfl
    | true => exact absurd (by simpa using hc) h2
  have hidt : task._id = id := (findById_some hf).2
  cases hfo : findOneByTitleExcept db.tasks (jsTrim title) task._id with
  | some t =>
    have hat : applyTitle db.tasks task body.title
        = .error (.message 400 "Task title must be unique") := by
      simp only [applyTitle, ht, h1, h2', h3, hfo, if_false, Bool.false_eq_true, ne_eq,
        not_false_eq_true, if_true]
    rw [updateTask_titleError_eq id body userId db task _ hf hv hat]
    refine ⟨fun _ => ?_, fun _ => rfl⟩
    by_contra hc
    have hn : findOneByTitleExcept db.tasks (jsTrim title) task._id = none :=
      (findOneByTitleExcept_eq_none_iff _ _ _).2
        (fun y hy hne heq => hc ⟨y, hy, by rw [← hidt]; exact hne, heq⟩)
    rw [hfo] at hn
    exact Option.noConfusion hn
  | none =>
    have hat : applyTitle db.tasks task body.title
        = .ok { task with title := jsTrim title } := by
      simp only [applyTitle, ht, h1, h2', h3, hfo, if_false, Bool.false_eq_true, ne_eq,
        not_false_eq_true, if_true]
    rw [updateTask_ok_eq id body userId db task _ hf hv hat]
    have hnone := (findOneByTitleExcept_eq_none_iff _ _ _).1 hfo
    constructor
    · intro h; exact Response.noConfusion h
    · rintro ⟨t, htm, hne, heq⟩
      exact absurd heq (hnone t htm (by rw [hidt]; exact hne))

/-- C4: on a task collection with distinct `_id`s, if no two stored tasks share a
title then after any single create, update, delete or smart-assign request (whatever
the answer) still no two stored tasks share a title (and `_id`s stay distinct); and an
update that sends a non-empty, non-reserved title different from the task's own title
is answered "Task title must be unique" exactly when some other stored task (any task
with a different `_id`) has that trimmed title. -/
theorem title_uniqueness_invariant (req : Request) (userId : ObjectId) (db : Db)
    (hid : IdsUnique db) (hu : TitlesUnique db) :
    (TitlesUnique (handle req userId db).2 ∧ IdsUnique (handle req userId db).2) ∧
    (∀ id body task title, findById db.tasks id = some task →
      versionConflict body.version task.version = false →
      body.title = some title → jsTrim title ≠ "" → jsTrim title ∉ forbiddenTitles →
      jsTrim title ≠ task.title →
      ((updateTask id body userId db).1 = .message 400 "Task title must be unique" ↔
        ∃ t ∈ db.tasks, t._id ≠ id ∧ t.title = jsTrim title)) := by
  refine ⟨?_, fun id body task title hf hv ht h1 h2 h3 =>
    updateTask_unique_check id body userId db task title hf hv ht h1 h2 h3⟩
  cases req with
  | create body => exact createTask_inv body userId db hid hu
  | update id body => exact updateTask_inv id body userId db hid hu
  | delete id => exact deleteTask_inv id userId db hid hu
  | smartAssign id => exact smartAssign_inv id userId db hid hu

/-- Renaming task 1 to the title of task 2 is rejected and titles stay distinct. -/
theorem title_uniqueness_invariant_witness :
    TitlesUnique (handle (.update 1 renameUpdate) 7 twoTaskDb).2 ∧
    (updateTask 1 renameUpdate 7 twoTaskDb).1 = .message 400 "Task title must be unique" :=
  have h := title_uniqueness_invariant (.update 1 renameUpdate) 7 twoTaskDb
    (by unfold IdsUnique; decide) (by unfold TitlesUnique; decide)
  ⟨h.1.1, (h.2 1 renameUpdate (newTask 1 "Write report" "" "Medium" (some 7) 7) " Fix bug "
      (by decide) (by decide) rfl (by decide) (by decide) (by decide)).2
      ⟨newTask 2 "Fix bug" "" "Medium" none 7, by decide, by decide, by decide⟩⟩

/-! ## Smart assign -/

theorem taskCountMap_append (items : List (ObjectId × Nat)) (a : ObjectId × Nat)
    (k : ObjectId) :
    taskCountMap (items ++ [a]) k = if k = a.1 then some a.2 else taskCountMap items k := by
  simp [taskCountMap, List.foldl_append]

theorem taskCountMap_of_graph (f : ObjectId → Nat) (items : List (ObjectId × Nat))
    (h : ∀ e ∈ items, e.2 = f e.1) (k : ObjectId) :
    taskCountMap items k = if k ∈ items.map Prod.fst then some (f k) else none := by
  induction items using List.reverseRecOn with
  | nil => simp [taskCountMap]
  | append_singleton l a ih =>
    rw [taskCountMap_append]
    have ha : a.2 = f a.1 := h a (by simp)
    have ihl := ih (fun e he => h e (by simp [he]))
    by_cases hk : k = a.1
    · simp [hk, ha]
    · rw [if_neg hk, ihl]
      by_cases hm : k ∈ l.map Prod.fst
      · have : k ∈ (l ++ [a]).map Prod.fst := by
          rw [List.map_append, List.mem_append]; exact Or.inl hm
        rw [if_pos hm, if_pos this]
      · have : k ∉ (l ++ [a]).map Prod.fst := by
          rw [List.map_append, List.mem_append]
          rintro (h1 | h1)
          · exact hm h1
          · simp at h1; exact hk h1
        rw [if_neg hm, if_neg this]

theorem count_matchedAssignees (tasks : List Task) (uid : ObjectId) :
    (matchedAssignees tasks).count uid = activeCount tasks uid := by
  induction tasks with
  | nil => rfl
  | cons t ts ih =>
    unfold matchedAssignees activeCount at ih ⊢
    cases hs : isActiveStatus t.status with
    | false => simp [List.filterMap_cons, List.filter_cons, hs, ih]
    | true =>
      cases ha : t.assignedTo with
      | none => simp [List.filterMap_cons, List.filter_cons, hs, ha, ih]
      | some a =>
        by_cases hu : a = uid
        · simp [List.filterMap_cons, List.filter_cons, hs, ha, hu, ih]
        · simp [List.filterMap_cons, List.filter_cons, hs, ha, hu, ih, List.count_cons]

theorem taskCountOf_aggregate (tasks : List Task) (u : User) :
    taskCountOf (taskCountMap (aggregateActive tasks)) u = activeCount tasks u._id := by
  unfold taskCountOf
  rw [taskCountMap_of_graph (fun k => (matchedAssignees tasks).count k)]
  · by_cases hm : u._id ∈ (aggregateActive tasks).map Prod.fst
    · rw [if_pos hm]
      exact count_matchedAssignees tasks u._id
    · rw [if_neg hm]
      have hnot : u._id ∉ matchedAssignees tasks := by
        intro hc
        apply hm
        simp [aggregateActive, List.map_map, Function.comp, hc]
      show 0 = activeCount tasks u._id
      rw [← count_matchedAssignees, List.count_eq_zero_of_not_mem hnot]
  · intro e he
    simp only [aggregateActive, List.mem_map] at he
    obtain ⟨k, _, rfl⟩ := he
    rfl

theorem selectUser_append (m : ObjectId → Option Nat) (l : List User) (a : User) :
    selectUser m (l ++ [a]) = selectStep m (selectUser m l) a := by
  simp [selectUser, List.foldl_append]

theorem selectUser_spec (m : ObjectId → Option Nat) (users : List User) (hne : users ≠ []) :
    ∃ pre u post, users = pre ++ u :: post ∧
      selectUser m users = (some u, some (taskCountOf m u)) ∧
      (∀ v ∈ pre, taskCountOf m u < taskCountOf m v) ∧
      (∀ v ∈ post, taskCountOf m u ≤ taskCountOf m v) := by
  induction users using List.reverseRecOn with
  | nil => exact absurd rfl hne
  | append_singleton l a ih =>
    rw [selectUser_append]
    by_cases hl : l = []
    · subst hl
      refine ⟨[], a, [], by simp, ?_, by simp, by simp⟩
      simp [selectUser, selectStep, belowMin]
    · obtain ⟨pre, u, post, hsplit, hsel, hpre, hpost⟩ := ih hl
      rw [hsel]
      by_cases hlt : taskCountOf m a < taskCountOf m u
      · refine ⟨l, a, [], rfl, ?_, ?_, by simp⟩
        · simp [selectStep, belowMin, hlt]
        · intro v hv
          rw [hsplit, List.mem_append, List.mem_cons] at hv
          rcases hv with hv | rfl | hv
          · exact lt_trans hlt (hpre v hv)
          · exact hlt
          · exact lt_of_lt_of_le hlt (hpost v hv)
      · refine ⟨pre, u, post ++ [a], by rw [hsplit]; simp, ?_, hpre, ?_⟩
        · simp [selectStep, belowMin, hlt]
        · intro v hv
          rw [List.mem_append, List.mem_singleton] at hv
          rcases hv with hv | rfl
          · exact hpost v hv
          · exact not_lt.mp hlt

theorem findById_saveExisting (tasks : List Task) (task saved : Task) (id : ObjectId)
    (hf : findById tasks id = some task) (hid : saved._id = id) :
    findById (saveExisting tasks saved) id = some saved := by
  induction tasks with
  | nil => simp [findById] at hf
  | cons t ts ih =>
    unfold findById saveExisting at *
    by_cases ht : t._id = id
    · simp [List.find?_cons, ht, hid]
    · have hts : List.find? (fun t => t._id == id) ts = some task := by
        simpa [List.find?_cons, ht] using hf
      have := ih hts
      simp [List.find?_cons, ht, hid]
      simpa [hid] using this

/-- C5: for an existing task, when the list of users is not empty the handler picks
the user `u` at the first position whose active-task count is minimal (every user
enumerated before `u` has a strictly larger count, every user after `u` a count at
least as large), stores `u` as the assignee of the task and logs one smart_assign
Action whose `taskCount` is that minimal count; and the handler answers "No users
available for assignment" exactly when the list of users is empty. -/
theorem smartAssign_least_loaded (id : ObjectId) (userId : ObjectId) (db : Db) (task : Task)
    (hf : findById db.tasks id = some task) :
    (db.users ≠ [] → ∃ pre u post, db.users = pre ++ u :: post ∧
      (∀ v ∈ pre, activeCount db.tasks u._id < activeCount db.tasks v._id) ∧
      (∀ v ∈ post, activeCount db.tasks u._id ≤ activeCount db.tasks v._id) ∧
      (smartAssign id userId db).1
        = .task 200 (populate db.users (bumpVersion { task with assignedTo := some u._id })) ∧
      (findById (smartAssign id userId db).2.tasks id).map Task.assignedTo
        = some (some u._id) ∧
      (smartAssign id userId db).2.actions
        = db.actions ++ [Action.mk .smart_assign task._id userId
            (.smartAssign u.username task.assignedTo (activeCount db.tasks u._id))]) ∧
    ((smartAssign id userId db).1 = .message 400 "No users available for assignment" ↔
      db.users = []) := by
  constructor
  · intro hne
    obtain ⟨pre, u, post, hsplit, hsel, hpre, hpost⟩ :=
      selectUser_spec (taskCountMap (aggregateActive db.tasks)) db.users hne
    simp only [taskCountOf_aggregate] at hsel hpre hpost
    refine ⟨pre, u, post, hsplit, hpre, hpost, ?_⟩
    rw [smartAssign_ok_eq id userId db task u _ hf hsel]
    refine ⟨rfl, ?_, rfl⟩
    show (findById (saveExisting db.tasks _) id).map Task.assignedTo = some (some u._id)
    rw [findById_saveExisting db.tasks task
      (bumpVersion { task with assignedTo := some u._id }) id hf (findById_some hf).2]
    rfl
  · constructor
    · intro h
      by_contra hne
      obtain ⟨pre, u, post, _, hsel, _, _⟩ :=
        selectUser_spec (taskCountMap (aggregateActive db.tasks)) db.users hne
      rw [smartAssign_ok_eq id userId db task u _ hf hsel] at h
      exact Response.noConfusion h
    · intro he
      have hs : ∀ u c, selectUser (taskCountMap (aggregateActive db.tasks)) db.users
          ≠ (some u, some c) := by
        intro u c
        rw [he]
        simp [selectUser]
      rw [smartAssign_state_of_not_selected id userId db task hf hs]

/-- With U1 (1), U2 (2), U3 (1) the tie goes to U1, and with U1 (0), U2 (2) the idle
U1 is picked; the recorded task counts are 1 and 0. -/
theorem smartAssign_least_loaded_witness :
    ((smartAssign 10 7 tieDb).1 = .message 400 "No users available for assignment" ↔
      tieDb.users = []) ∧
    (smartAssign 10 7 tieDb).2.actions
      = [Action.mk .smart_assign 10 7 (.smartAssign "U1" none 1)] ∧
    (findById (smartAssign 10 7 tieDb).2.tasks 10).map Task.assignedTo = some (some 1) ∧
    (smartAssign 10 7 idleDb).2.actions
      = [Action.mk .smart_assign 10 7 (.smartAssign "U1" none 0)] :=
  ⟨(smartAssign_least_loaded 10 7 tieDb
      { newTask 10 "f" "" "Medium" none 1 with status := "Done" } (by decide)).2,
   by decide, by decide, by decide⟩

/-! ## Editing sessions -/

section MapLemmas

variable {K V : Type} [DecidableEq K]

theorem mapGet_nil (k : K) : mapGet ([] : List (K × V)) k = none := rfl

theorem mapGet_cons_self (e : K × V) (m : List (K × V)) (k : K) (h : e.1 = k) :
    mapGet (e :: m) k = some e.2 := by
  simp [mapGet, List.find?_cons, h]

theorem mapGet_cons_of_ne (e : K × V) (m : List (K × V)) (k : K) (h : e.1 ≠ k) :
    mapGet (e :: m) k = mapGet m k := by
  simp [mapGet, List.find?_cons, h]

theorem mapGet_mapSet_self (m : List (K × V)) (k : K) (v : V) :
    mapGet (mapSet m k v) k = some v := by
  induction m with
  | nil => simp [mapSet, mapGet]
  | cons e m ih =>
    by_cases h : e.1 = k
    · simp [mapSet, h, mapGet]
    · simp only [mapSet, beq_iff_eq, h, if_false]
      rw [mapGet_cons_of_ne e _ k h]
      exact ih

theorem mapGet_mapSet_of_ne (m : List (K × V)) (k k2 : K) (v : V) (hne : k2 ≠ k) :
    mapGet (mapSet m k v) k2 = mapGet m k2 := by
  induction m with
  | nil =>
    simp only [mapSet]
    rw [mapGet_cons_of_ne _ _ _ (fun h => hne h.symm)]
  | cons e m ih =>
    by_cases h : e.1 = k
    · simp only [mapSet, beq_iff_eq, h, if_true]
      rw [mapGet_cons_of_ne _ _ _ (fun h2 => hne h2.symm),
        mapGet_cons_of_ne e _ _ (fun h2 => hne (h2.symm.trans h))]
    · simp only [mapSet, beq_iff_eq, h, if_false]
      by_cases h2 : e.1 = k2
      · rw [mapGet_cons_self _ _ _ h2, mapGet_cons_self _ _ _ h2]
      · rw [mapGet_cons_of_ne _ _ _ h2, mapGet_cons_of_ne _ _ _ h2]
        exact ih

theorem mapSet_of_mapGet (m : List (K × V)) (k : K) (v : V) (h : mapGet m k = some v) :
    mapSet m k v = m := by
  induction m with
  | nil => simp [mapGet] at h
  | cons e m ih =>
    by_cases he : e.1 = k
    · rw [mapGet_cons_self e m k he] at h
      have hv : e.2 = v := Option.some.inj h
      simp only [mapSet, beq_iff_eq, he, if_true]
      rw [← he, ← hv]
    · rw [mapGet_cons_of_ne e m k he] at h
      simp only [mapSet, beq_iff_eq, he, if_false]
      rw [ih h]

theorem mapSet_mapSet (m : List (K × V)) (k : K) (v w : V) :
    mapSet (mapSet m k v) k w = mapSet m k w := by
  induction m with
  | nil => simp [mapSet]
  | cons e m ih =>
    by_cases he : e.1 = k
    · simp [mapSet, he]
    · simp only [mapSet, beq_iff_eq, he, if_false]
      rw [ih]

theorem mapGet_of_not_has (m : List (K × V)) (k : K) (h : mapHas m k = false) :
    mapGet m k = none := by
  induction m with
  | nil => rfl
  | cons e m ih =>
    simp only [mapHas, List.any_cons, Bool.or_eq_false_iff, beq_eq_false_iff_ne] at h
    rw [mapGet_cons_of_ne e m k h.1]
    exact ih h.2

theorem mapGet_of_has (m : List (K × V)) (k : K) (h : mapHas m k = true) :
    ∃ v, mapGet m k = some v := by
  induction m with
  | nil => simp [mapHas] at h
  | cons e m ih =>
    by_cases he : e.1 = k
    · exact ⟨e.2, mapGet_cons_self e m k he⟩
    · rw [mapGet_cons_of_ne e m k he]
      apply ih
      simpa [mapHas, he] using h

theorem mapGet_mapDelete_self (m : List (K × V)) (k : K) : mapGet (mapDelete m k) k = none := by
  simp [mapGet, mapDelete, List.find?_eq_none]

theorem mapGet_mapDelete_of_ne (m : List (K × V)) (k k2 : K) (hne : k2 ≠ k) :
    mapGet (mapDelete m k) k2 = mapGet m k2 := by
  induction m with
  | nil => rfl
  | cons e m ih =>
    by_cases he : e.1 = k
    · have : mapDelete (e :: m) k = mapDelete m k := by simp [mapDelete, he]
      rw [this, ih, mapGet_cons_of_ne e m k2 (fun h2 => hne (h2.symm.trans he))]
    · have : mapDelete (e :: m) k = e :: mapDelete m k := by simp [mapDelete, he]
      rw [this]
      by_cases h2 : e.1 = k2
      · rw [mapGet_cons_self _ _ _ h2, mapGet_cons_self _ _ _ h2]
      · rw [mapGet_cons_of_ne _ _ _ h2, mapGet_cons_of_ne _ _ _ h2]
        exact ih

end MapLemmas

theorem startEditingTask_eq (socket : Socket) (taskId : Nat) (hub : Hub) :
    startEditingTask socket taskId hub =
      (Hub.mk hub.activeUsers (mapSet hub.taskEditSessions taskId
          (setAdd (editorsOf hub taskId) socket.userId)),
       if (setAdd (editorsOf hub taskId) socket.userId).length > 1 then
         [.editingConflict taskId (setAdd (editorsOf hub taskId) socket.userId)]
       else []) := by
  unfold startEditingTask editorsOf
  cases hh : mapHas hub.taskEditSessions taskId with
  | false =>
    simp only [Bool.not_false, if_true]
    rw [mapGet_mapSet_self, mapGet_of_not_has _ _ hh, mapSet_mapSet]
    rfl
  | true =>
    simp only [Bool.not_true, Bool.false_eq_true, if_false]

theorem stopEditingTask_emits_nothing (socket : Socket) (taskId : Nat) (hub : Hub) :
    (stopEditingTask socket taskId hub).2 = [] := by
  unfold stopEditingTask
  split
  · simp only []
    split <;> rfl
  · rfl

theorem setAdd_of_not_mem {A : Type} [DecidableEq A] (s : List A) (a : A) (h : a ∉ s) :
    setAdd s a = s ++ [a] := by
  simp [setAdd, h]

theorem setAdd_of_mem {A : Type} [DecidableEq A] (s : List A) (a : A) (h : a ∈ s) :
    setAdd s a = s := by
  simp [setAdd, h]

/-- C6: when the actor is not yet in the task's editor set, startEditingTask appends
the actor to the set and emits `editingConflict` exactly when the set then has at
least two members, the payload being the task id and the full editor set;
stopEditingTask never emits. From an empty hub: A starting emits nothing, B starting
emits one signal listing A, B, C starting emits one listing A, B, C, and B stopping
leaves A, C and emits nothing. -/
theorem startEditing_conflict_signal (socket : Socket) (taskId : Nat) (hub : Hub)
    (hnot : socket.userId ∉ editorsOf hub taskId) :
    editorsOf (startEditingTask socket taskId hub).1 taskId
      = editorsOf hub taskId ++ [socket.userId] ∧
    ((startEditingTask socket taskId hub).2 ≠ [] ↔
      2 ≤ (editorsOf (startEditingTask socket taskId hub).1 taskId).length) ∧
    ((startEditingTask socket taskId hub).2 ≠ [] →
      (startEditingTask socket taskId hub).2
        = [.editingConflict taskId (editorsOf (startEditingTask socket taskId hub).1 taskId)]) ∧
    (∀ s t h, (stopEditingTask s t h).2 = []) ∧
    ((startEditingTask socketA 5 emptyHub).2 = [] ∧
     (startEditingTask socketB 5 hubA).2 = [.editingConflict 5 [1, 2]] ∧
     (startEditingTask socketC 5 hubAB).2 = [.editingConflict 5 [1, 2, 3]] ∧
     editorsOf (stopEditingTask socketB 5 hubABC).1 5 = [1, 3] ∧
     (stopEditingTask socketB 5 hubABC).2 = []) := by
  have heds : editorsOf (startEditingTask socket taskId hub).1 taskId
      = editorsOf hub taskId ++ [socket.userId] := by
    rw [startEditingTask_eq, setAdd_of_not_mem _ _ hnot]
    show (mapGet (mapSet hub.taskEditSessions taskId _) taskId).getD [] = _
    rw [mapGet_mapSet_self]
    rfl
  have hemit : (startEditingTask socket taskId hub).2
      = if (editorsOf hub taskId ++ [socket.userId]).length > 1 then
          [.editingConflict taskId (editorsOf hub taskId ++ [socket.userId])] else [] := by
    rw [startEditingTask_eq, setAdd_of_not_mem _ _ hnot]
  refine ⟨heds, ?_, ?_, stopEditingTask_emits_nothing, by decide⟩
  · rw [heds, hemit]
    by_cases hl : (editorsOf hub taskId ++ [socket.userId]).length > 1
    · rw [if_pos hl]
      exact ⟨fun _ => hl, fun _ => List.cons_ne_nil _ _⟩
    · rw [if_neg hl]
      exact ⟨fun h => absurd rfl h, fun h => absurd h hl⟩
  · rw [heds, hemit]
    by_cases hl : (editorsOf hub taskId ++ [socket.userId]).length > 1
    · rw [if_pos hl]
      exact fun _ => rfl
    · rw [if_neg hl]
      exact fun h => absurd rfl h

/-- B joining A on task 5 raises one signal listing A then B. -/
theorem startEditing_conflict_signal_witness :
    socketB.userId ∉ editorsOf hubA 5 ∧
    editorsOf (startEditingTask socketB 5 hubA).1 5 = editorsOf hubA 5 ++ [socketB.userId] ∧
    ((startEditingTask socketB 5 hubA).2 ≠ [] ↔
      2 ≤ (editorsOf (startEditingTask socketB 5 hubA).1 5).length) :=
  ⟨by decide,
   (startEditing_conflict_signal socketB 5 hubA (by decide)).1,
   (startEditing_conflict_signal socketB 5 hubA (by decide)).2.1⟩

/-- C7 as stated fails: A is already one of the two editors of task 5; A starting
again leaves the sessions unchanged but an `editingConflict` listing A, B is emitted. -/
theorem present_actor_restart_emits_conflict :
    socketA.userId ∈ editorsOf contestedHub 5 ∧
    (startEditingTask socketA 5 contestedHub).1 = contestedHub ∧
    (startEditingTask socketA 5 contestedHub).2 = [.editingConflict 5 [1, 2]] := by
  decide

/-- C7 (amended): when the actor is already in the task's editor set, startEditingTask
leaves the hub unchanged, and it emits `editingConflict` with the task id and the
unchanged editor set exactly when that set has at least two members (nothing when the
actor is the only editor). -/
theorem startEditing_present_actor (socket : Socket) (taskId : Nat) (hub : Hub)
    (hmem : socket.userId ∈ editorsOf hub taskId) :
    (startEditingTask socket taskId hub).1 = hub ∧
    (startEditingTask socket taskId hub).2 =
      (if 2 ≤ (editorsOf hub taskId).length then
        [.editingConflict taskId (editorsOf hub taskId)] else []) := by
  rw [startEditingTask_eq, setAdd_of_mem _ _ hmem]
  refine ⟨?_, rfl⟩
  have hget : mapGet hub.taskEditSessions taskId = some (editorsOf hub taskId) := by
    unfold editorsOf at hmem ⊢
    cases hg : mapGet hub.taskEditSessions taskId with
    | none => rw [hg] at hmem; simp at hmem
    | some eds => rfl
  show Hub.mk hub.activeUsers (mapSet hub.taskEditSessions taskId (editorsOf hub taskId)) = hub
  rw [mapSet_of_mapGet _ _ _ hget]

/-- The only editor A starting again changes nothing and emits nothing. -/
theorem startEditing_present_actor_witness :
    socketA.userId ∈ editorsOf hubA 5 ∧
    (startEditingTask socketA 5 hubA).1 = hubA ∧
    (startEditingTask socketA 5 hubA).2 = [] :=
  ⟨by decide, (startEditing_present_actor socketA 5 hubA (by decide)).1,
   (startEditing_present_actor socketA 5 hubA (by decide)).2⟩

/-! ## Disconnect -/

theorem mem_cleanSessions (sessions : List (Nat × List ObjectId)) (userId : ObjectId)
    (e2 : Nat × List ObjectId) :
    e2 ∈ cleanSessions sessions userId ↔
      ∃ e ∈ sessions, setDelete e.2 userId ≠ [] ∧ e2 = (e.1, setDelete e.2 userId) := by
  unfold cleanSessions
  rw [List.mem_filterMap]
  constructor
  · rintro ⟨e, he, hf⟩
    by_cases hl : (setDelete e.2 userId).length = 0
    · simp [hl] at hf
    · simp only [hl, if_false, Option.some.injEq] at hf
      exact ⟨e, he, fun h => hl (by rw [h]; rfl), hf.symm⟩
  · rintro ⟨e, he, hne, rfl⟩
    refine ⟨e, he, ?_⟩
    have hl : ¬ (setDelete e.2 userId).length = 0 := fun h => hne (List.length_eq_zero.mp h)
    simp only [hl, if_false]

theorem mem_setDelete {A : Type} [DecidableEq A] (s : List A) (a b : A) :
    b ∈ setDelete s a ↔ b ∈ s ∧ b ≠ a := by
  simp [setDelete]

/-- C8: after the disconnect handler ran for an actor, the actor is in no editor set
and has no presence entry; every other actor has the same presence entry and the same
editing memberships as before; no entry with an empty editor set remains; the handler
emits exactly one event, the `activeUsers` snapshot of the entries of the other
actors; and it emits no `editingConflict`. -/
theorem disconnect_cleanup (socket : Socket) (hub : Hub) :
    (∀ t, ¬ isEditing (disconnect socket hub).1 t socket.userId) ∧
    mapGet (disconnect socket hub).1.activeUsers socket.userId = none ∧
    (∀ b, b ≠ socket.userId →
      mapGet (disconnect socket hub).1.activeUsers b = mapGet hub.activeUsers b) ∧
    (∀ b t, b ≠ socket.userId →
      (isEditing (disconnect socket hub).1 t b ↔ isEditing hub t b)) ∧
    (∀ e ∈ (disconnect socket hub).1.taskEditSessions, e.2 ≠ []) ∧
    (disconnect socket hub).2
      = [.activeUsers (presenceSnapshot
          (hub.activeUsers.filter (fun e => e.1 != socket.userId)))] ∧
    (∀ t eds, Emit.editingConflict t eds ∉ (disconnect socket hub).2) := by
  refine ⟨?_, ?_, ?_, ?_, ?_, rfl, ?_⟩
  · rintro t ⟨e2, he2, _, hmem⟩
    obtain ⟨e, _, _, rfl⟩ := (mem_cleanSessions _ _ _).1 he2
    exact ((mem_setDelete _ _ _).1 hmem).2 rfl
  · exact mapGet_mapDelete_self _ _
  · intro b hb
    exact mapGet_mapDelete_of_ne _ _ _ hb
  · intro b t hb
    constructor
    · rintro ⟨e2, he2, ht, hmem⟩
      obtain ⟨e, he, _, rfl⟩ := (mem_cleanSessions _ _ _).1 he2
      exact ⟨e, he, ht, ((mem_setDelete _ _ _).1 hmem).1⟩
    · rintro ⟨e, he, ht, hmem⟩
      have hin : b ∈ setDelete e.2 socket.userId := (mem_setDelete _ _ _).2 ⟨hmem, hb⟩
      exact ⟨(e.1, setDelete e.2 socket.userId),
        (mem_cleanSessions _ _ _).2 ⟨e, he, List.ne_nil_of_mem hin, rfl⟩, ht, hin⟩
  · intro e2 he2
    obtain ⟨e, _, hne, rfl⟩ := (mem_cleanSessions _ _ _).1 he2
    exact hne
  · intro t eds hmem
    simp [disconnect] at hmem

/-- A disconnecting: B keeps its entry and its membership of task 5, the entry of
task 6 (edited by A alone) is gone, and the snapshot lists B and C. -/
theorem disconnect_cleanup_witness :
    mapGet (disconnect socketA busyHub).1.activeUsers 2 = mapGet busyHub.activeUsers 2 ∧
    (isEditing (disconnect socketA busyHub).1 5 2 ↔ isEditing busyHub 5 2) ∧
    (disconnect socketA busyHub).1.taskEditSessions = [(5, [2])] ∧
    (disconnect socketA busyHub).2
      = [.activeUsers [PresenceEntry.mk 102 "B" 11, PresenceEntry.mk 103 "C" 12]] :=
  ⟨(disconnect_cleanup socketA busyHub).2.2.1 2 (by decide),
   (disconnect_cleanup socketA busyHub).2.2.2.1 2 5 (by decide),
   by decide, by decide⟩

/-! ## Presence over a sequence of connects and disconnects -/

theorem runEvents_append (l : List SocketEvent) (e : SocketEvent) :
    runEvents (l ++ [e]) = applyEvent (runEvents l) e := by
  simp [runEvents, List.foldl_append]

theorem lastEventIsConnect_append (l : List SocketEvent) (e : SocketEvent) (userId : ObjectId) :
    lastEventIsConnect (l ++ [e]) userId =
      if e.socket.userId = userId then e.isConnect else lastEventIsConnect l userId := by
  unfold lastEventIsConnect
  by_cases h : e.socket.userId = userId
  · simp [List.filter_append, List.filter_cons, h]
  · simp [List.filter_append, List.filter_cons, h]

theorem mapSet_keys {K V : Type} [DecidableEq K] (m : List (K × V)) (k : K) (v : V) :
    (mapSet m k v).map Prod.fst =
      if k ∈ m.map Prod.fst then m.map Prod.fst else m.map Prod.fst ++ [k] := by
  induction m with
  | nil => simp [mapSet]
  | cons e m ih =>
    by_cases he : e.1 = k
    · simp [mapSet, he]
    · have hne : ¬ k = e.1 := fun h => he h.symm
      simp only [mapSet, beq_iff_eq, he, if_false, List.map_cons, List.mem_cons, hne,
        false_or] at ih ⊢
      rw [ih]
      by_cases hk : k ∈ m.map Prod.fst
      · have hk2 : ∃ a, (k, a) ∈ m := by simpa using hk
        simp [hk2]
      · have hk2 : ¬ ∃ a, (k, a) ∈ m := by simpa using hk
        simp [hk2]

theorem mapSet_keys_nodup {K V : Type} [DecidableEq K] (m : List (K × V)) (k : K) (v : V)
    (h : (m.map Prod.fst).Nodup) : ((mapSet m k v).map Prod.fst).Nodup := by
  rw [mapSet_keys]
  by_cases hk : k ∈ m.map Prod.fst
  · rw [if_pos hk]; exact h
  · rw [if_neg hk, List.nodup_append]
    refine ⟨h, List.nodup_singleton _, ?_⟩
    intro x hx hx2
    rw [List.mem_singleton] at hx2
    exact hk (hx2 ▸ hx)

theorem mapDelete_keys_nodup {K V : Type} [DecidableEq K] (m : List (K × V)) (k : K)
    (h : (m.map Prod.fst).Nodup) : ((mapDelete m k).map Prod.fst).Nodup :=
  List.Nodup.sublist ((List.filter_sublist m).map Prod.fst) h

/-- C9 as stated fails: actor A (user 1) connects on sockets 101 and 104, then socket
101 disconnects; socket 104 of A is still connected, yet A has no presence entry. -/
theorem presence_lost_with_live_session :
    socketA2 ∈ connectedSockets twoSessionTrace ∧ socketA2.userId = 1 ∧
    mapGet (runEvents twoSessionTrace).activeUsers 1 = none := by
  decide

/-- C9 (amended): after any sequence of connect and disconnect events, a user has a
presence entry exactly when the latest event among the sockets of that user is a
connect, and no two presence entries belong to the same user. -/
theorem presence_iff_last_event_connect (events : List SocketEvent) (userId : ObjectId) :
    (mapGet (runEvents events).activeUsers userId).isSome = lastEventIsConnect events userId ∧
    ((runEvents events).activeUsers.map Prod.fst).Nodup := by
  induction events using List.reverseRecOn with
  | nil => exact ⟨rfl, List.nodup_nil⟩
  | append_singleton l e ih =>
    rw [runEvents_append, lastEventIsConnect_append]
    obtain ⟨ih1, ih2⟩ := ih
    cases e with
    | connect s now =>
      show (mapGet (mapSet (runEvents l).activeUsers s.userId _) userId).isSome = _ ∧
        ((mapSet (runEvents l).activeUsers s.userId _).map Prod.fst).Nodup
      refine ⟨?_, mapSet_keys_nodup _ _ _ ih2⟩
      by_cases h : s.userId = userId
      · subst h
        rw [mapGet_mapSet_self]
        simp [SocketEvent.socket, SocketEvent.isConnect]
      · rw [mapGet_mapSet_of_ne _ _ _ _ (fun h2 => h h2.symm), ih1]
        simp [SocketEvent.socket, h]
    | disconnect s =>
      show (mapGet (mapDelete (runEvents l).activeUsers s.userId) userId).isSome = _ ∧
        ((mapDelete (runEvents l).activeUsers s.userId).map Prod.fst).Nodup
      refine ⟨?_, mapDelete_keys_nodup _ _ ih2⟩
      by_cases h : s.userId = userId
      · subst h
        rw [mapGet_mapDelete_self]
        simp [SocketEvent.socket, SocketEvent.isConnect]
      · rw [mapGet_mapDelete_of_ne _ _ _ (fun h2 => h h2.symm), ih1]
        simp [SocketEvent.socket, h]

end RealTime
